import Mathlib

/-
Verification of the professional-tracker time-session engine.

The Go source (internal/services/sessions/sessions.go, the projects service
and the db models) is shallowly embedded below.  Timestamps are modelled as
whole minutes (Int): the Go code converts every interval to whole minutes
with int(d.Minutes()) before it is stored or used, so at this granularity
the conversion is the identity.  float64 money/hour amounts are modelled as
exact rationals.  Repository calls (pgconnect) are modelled as operations on
an explicit database state; the only repository call whose failure the
source handles specially (activeSessionRepo.Create inside StartWorkSession,
which triggers the rollback path) is modelled by the ptrCreateOk flag.
-/

namespace ProfessionalTracker

/-- Mirrors db.TimeSession (internal/db models). -/
structure TimeSession where
  id : Nat
  projectID : Nat
  projectAssignmentID : Option Nat
  userID : String
  companyID : String
  startTime : Int
  endTime : Option Int
  sessionType : String
  durationMinutes : Int
  hourlyRate : Option Rat
  sessionCost : Rat
  notes : Option String
  isActive : Bool
  createdAt : Int
  updatedAt : Int
deriving DecidableEq, Repr

/-- Mirrors db.SessionBreak. -/
structure SessionBreak where
  id : Nat
  sessionID : Nat
  breakType : String
  startTime : Int
  endTime : Option Int
  durationMinutes : Int
  isActive : Bool
  createdAt : Int
deriving DecidableEq, Repr

/-- Mirrors db.UserActiveSession (one row per user, primary key userID). -/
structure UserActiveSession where
  userID : String
  sessionID : Nat
  companyID : String
  projectID : Nat
  startedAt : Int
  lastActivityAt : Int
  isOnBreak : Bool
  currentBreakID : Option Nat
  updatedAt : Int
deriving DecidableEq, Repr

/-- Mirrors db.ProfessionalProject (columns the engine reads). -/
structure ProfessionalProject where
  id : Nat
  baseProjectID : String
  title : String
  clientName : Option String
  totalSalaryCost : Rat
  totalHours : Rat
  isActive : Bool
  createdAt : Int
  updatedAt : Int
deriving DecidableEq, Repr

/-- Mirrors db.UserTimeReport. -/
structure UserTimeReport where
  userID : String
  projectID : Nat
  companyID : String
  totalHours : Rat
  workSessions : Int
  breakMinutes : Int
  productiveHours : Rat
  lastSession : Int
  averageDaily : Rat
deriving DecidableEq, Repr

/-- Mirrors db.ProjectTimeReport. -/
structure ProjectTimeReport where
  projectID : Nat
  projectTitle : String
  companyID : String
  totalHours : Rat
  totalCost : Rat
  workSessions : Int
  averageSession : Rat
  lastActivity : Int
  activeWorkers : Int
deriving DecidableEq, Repr

/-- db.SessionTypeWork. -/
def SessionTypeWork : String := "work"

/-- db.SessionTypeBreak. -/
def SessionTypeBreak : String := "break"

/-- db.SessionTypeLunch. -/
def SessionTypeLunch : String := "lunch"

/-- db.SessionTypeBRB. -/
def SessionTypeBRB : String := "brb"

/-- db.BreakTypeShort: note the stored string is "break", not "short". -/
def BreakTypeShort : String := "break"

/-- db.BreakTypeLunch. -/
def BreakTypeLunch : String := "lunch"

/-- db.BreakTypeBRB. -/
def BreakTypeBRB : String := "brb"

/-- The persistent state behind the pgconnect repositories used by the
service: the four tables plus the autoincrement counters gorm keeps for
the two tables the engine inserts into. -/
structure DBState where
  sessions : List TimeSession
  breaks : List SessionBreak
  activeSessions : List UserActiveSession
  projects : List ProfessionalProject
  nextSessionID : Nat
  nextBreakID : Nat
deriving DecidableEq, Repr

/-- Error kinds of the engine: the Go code returns string errors whose
sites correspond one-to-one to these kinds (spec section 7). -/
inductive SvcError where
  | conflict
  | notFound
  | invalidArgument
  | invalidState
  | internalError
deriving DecidableEq, Repr

/-- calculateSessionDuration: whole minutes between start and end, the
current instant standing in for a missing end time. -/
def calculateSessionDuration (session : TimeSession) (now : Int) : Int :=
  match session.endTime with
  | none => now - session.startTime
  | some e => e - session.startTime

/-- calculateSessionCost: zero without a rate, else (minutes/60) * rate. -/
def calculateSessionCost (session : TimeSession) (now : Int) : Rat :=
  match session.hourlyRate with
  | none => 0
  | some rate =>
    let duration := calculateSessionDuration session now
    let hours : Rat := (duration : Rat) / 60
    hours * rate

/-- calculateBreakDuration. -/
def calculateBreakDuration (breakRecord : SessionBreak) (now : Int) : Int :=
  match breakRecord.endTime with
  | none => now - breakRecord.startTime
  | some e => e - breakRecord.startTime

/-- isValidBreakType: membership in the validTypes slice. -/
def isValidBreakType (breakType : String) : Bool :=
  [BreakTypeShort, BreakTypeLunch, BreakTypeBRB].contains breakType

/-- sessionRepo.FindByID. -/
def findSessionByID (st : DBState) (id : Nat) : Option TimeSession :=
  (st.sessions.filter (fun s => s.id == id)).head?

/-- breakRepo.FindByID. -/
def findBreakByID (st : DBState) (id : Nat) : Option SessionBreak :=
  (st.breaks.filter (fun b => b.id == id)).head?

/-- projectRepo.FindByID. -/
def findProjectByID (st : DBState) (id : Nat) : Option ProfessionalProject :=
  (st.projects.filter (fun p => p.id == id)).head?

/-- GetActiveSession: FindWhere on user_id, then the first row, an error
when the result set is empty. -/
def getActiveSession (st : DBState) (userID : String) : Except SvcError UserActiveSession :=
  match (st.activeSessions.filter (fun a => a.userID == userID)).head? with
  | none => Except.error SvcError.notFound
  | some a => Except.ok a

/-- HasActiveSession: FindWhere on user_id, then len > 0. -/
def hasActiveSession (st : DBState) (userID : String) : Bool :=
  decide (0 < (st.activeSessions.filter (fun a => a.userID == userID)).length)

/-- The TimeSession literal built by StartWorkSession, with the id gorm
assigns on insert. -/
def newWorkSession (st : DBState) (projectID : Nat) (companyID userID : String)
    (hourlyRate : Option Rat) (now : Int) : TimeSession :=
  { id := st.nextSessionID
    projectID := projectID
    projectAssignmentID := none
    userID := userID
    companyID := companyID
    startTime := now
    endTime := none
    sessionType := SessionTypeWork
    durationMinutes := 0
    hourlyRate := hourlyRate
    sessionCost := 0
    notes := none
    isActive := true
    createdAt := now
    updatedAt := now }

/-- The UserActiveSession literal built by StartWorkSession. -/
def newActiveSessionRecord (st : DBState) (projectID : Nat) (companyID userID : String)
    (now : Int) : UserActiveSession :=
  { userID := userID
    sessionID := st.nextSessionID
    companyID := companyID
    projectID := projectID
    startedAt := now
    lastActivityAt := now
    isOnBreak := false
    currentBreakID := none
    updatedAt := now }

/-- StartWorkSession.  ptrCreateOk models whether the insert of the
active-session record succeeds; on failure the source deletes the
just-created session (the rollback path). -/
def startWorkSession (st : DBState) (projectID : Nat) (companyID userID : String)
    (hourlyRate : Option Rat) (now : Int) (ptrCreateOk : Bool) :
    Except SvcError TimeSession × DBState :=
  if hasActiveSession st userID then
    (Except.error SvcError.conflict, st)
  else
    match findProjectByID st projectID with
    | none => (Except.error SvcError.notFound, st)
    | some _ =>
      let session := newWorkSession st projectID companyID userID hourlyRate now
      let st1 : DBState :=
        { st with sessions := st.sessions ++ [session], nextSessionID := st.nextSessionID + 1 }
      if ptrCreateOk then
        let activeSession := newActiveSessionRecord st projectID companyID userID now
        (Except.ok session, { st1 with activeSessions := st1.activeSessions ++ [activeSession] })
      else
        (Except.error SvcError.internalError,
         { st1 with sessions := st1.sessions.filter (fun s => s.id != session.id) })

/-- The three field mutations EndBreak applies to the break record. -/
def closeBreak (breakRecord : SessionBreak) (now : Int) : SessionBreak :=
  let b1 := { breakRecord with endTime := some now, isActive := false }
  { b1 with durationMinutes := calculateBreakDuration b1 now }

/-- The pointer mutation EndBreak applies to the active-session record. -/
def clearBreakOnPointer (active : UserActiveSession) (now : Int) : UserActiveSession :=
  { active with isOnBreak := false, currentBreakID := none,
                lastActivityAt := now, updatedAt := now }

/-- EndBreak. -/
def endBreak (st : DBState) (userID : String) (now : Int) :
    Except SvcError SessionBreak × DBState :=
  match getActiveSession st userID with
  | Except.error _ => (Except.error SvcError.notFound, st)
  | Except.ok active =>
    if !active.isOnBreak || active.currentBreakID == none then
      (Except.error SvcError.invalidState, st)
    else
      match active.currentBreakID with
      | none => (Except.error SvcError.invalidState, st)
      | some breakID =>
        match findBreakByID st breakID with
        | none => (Except.error SvcError.notFound, st)
        | some breakRecord =>
          let closed := closeBreak breakRecord now
          let st1 : DBState :=
            { st with breaks := st.breaks.map (fun b => if b.id == closed.id then closed else b) }
          let active2 := clearBreakOnPointer active now
          let st2 : DBState :=
            { st1 with activeSessions :=
                st1.activeSessions.map (fun a => if a.userID == active2.userID then active2 else a) }
          (Except.ok closed, st2)

/-- The field mutations FinishWorkSession applies to the session: end the
interval, recompute duration and cost from it. -/
def closeSession (session : TimeSession) (now : Int) : TimeSession :=
  let s1 := { session with endTime := some now, isActive := false }
  let s2 := { s1 with durationMinutes := calculateSessionDuration s1 now }
  { s2 with sessionCost := calculateSessionCost s2 now, updatedAt := now }

/-- The tail of FinishWorkSession after any open break was ended: load the
session the pointer references, persist the closed session, delete the
pointer row. -/
def finishSessionUpdate (st : DBState) (activeSession : UserActiveSession) (now : Int) :
    Except SvcError TimeSession × DBState :=
  match findSessionByID st activeSession.sessionID with
  | none => (Except.error SvcError.notFound, st)
  | some session =>
    let closed := closeSession session now
    let st1 : DBState :=
      { st with sessions := st.sessions.map (fun s => if s.id == closed.id then closed else s) }
    let st2 : DBState :=
      { st1 with activeSessions :=
          st1.activeSessions.filter (fun a => a.userID != activeSession.userID) }
    (Except.ok closed, st2)

/-- FinishWorkSession. -/
def finishWorkSession (st : DBState) (userID : String) (now : Int) :
    Except SvcError TimeSession × DBState :=
  match getActiveSession st userID with
  | Except.error _ => (Except.error SvcError.notFound, st)
  | Except.ok activeSession =>
    if activeSession.isOnBreak && activeSession.currentBreakID != none then
      match endBreak st userID now with
      | (Except.error e, st1) => (Except.error e, st1)
      | (Except.ok _, st1) => finishSessionUpdate st1 activeSession now
    else
      finishSessionUpdate st activeSession now

/-- The SessionBreak literal built by TakeBreak. -/
def newBreakRecord (st : DBState) (active : UserActiveSession) (breakType : String)
    (now : Int) : SessionBreak :=
  { id := st.nextBreakID
    sessionID := active.sessionID
    breakType := breakType
    startTime := now
    endTime := none
    durationMinutes := 0
    isActive := true
    createdAt := now }

/-- The pointer mutation TakeBreak applies to the active-session record. -/
def setBreakOnPointer (active : UserActiveSession) (breakID : Nat) (now : Int) :
    UserActiveSession :=
  { active with isOnBreak := true, currentBreakID := some breakID,
                lastActivityAt := now, updatedAt := now }

/-- TakeBreak. -/
def takeBreak (st : DBState) (userID breakType : String) (now : Int) :
    Except SvcError SessionBreak × DBState :=
  match getActiveSession st userID with
  | Except.error _ => (Except.error SvcError.notFound, st)
  | Except.ok active =>
    if active.isOnBreak then
      (Except.error SvcError.conflict, st)
    else if !isValidBreakType breakType then
      (Except.error SvcError.invalidArgument, st)
    else
      let breakRecord := newBreakRecord st active breakType now
      let st1 : DBState :=
        { st with breaks := st.breaks ++ [breakRecord], nextBreakID := st.nextBreakID + 1 }
      let active2 := setBreakOnPointer active breakRecord.id now
      let st2 : DBState :=
        { st1 with activeSessions :=
            st1.activeSessions.map (fun a => if a.userID == active2.userID then active2 else a) }
      (Except.ok breakRecord, st2)

/-- SwitchProject: finish the current session, start a new one with the
pointer's company and the closed session's hourly rate. -/
def switchProject (st : DBState) (userID : String) (newProjectID : Nat) (now : Int)
    (ptrCreateOk : Bool) : Except SvcError TimeSession × DBState :=
  match getActiveSession st userID with
  | Except.error _ => (Except.error SvcError.notFound, st)
  | Except.ok activeSession =>
    match finishWorkSession st userID now with
    | (Except.error e, st1) => (Except.error e, st1)
    | (Except.ok currentSession, st1) =>
      startWorkSession st1 newProjectID activeSession.companyID userID
        currentSession.hourlyRate now ptrCreateOk

/-- SwitchCompany: finish the current session when one exists, then start
a session under the new company. -/
def switchCompany (st : DBState) (userID newCompanyID : String) (newProjectID : Nat)
    (hourlyRate : Option Rat) (now : Int) (ptrCreateOk : Bool) :
    Except SvcError TimeSession × DBState :=
  if hasActiveSession st userID then
    match finishWorkSession st userID now with
    | (Except.error e, st1) => (Except.error e, st1)
    | (Except.ok _, st1) =>
      startWorkSession st1 newProjectID newCompanyID userID hourlyRate now ptrCreateOk
  else
    startWorkSession st newProjectID newCompanyID userID hourlyRate now ptrCreateOk

/-- GetUserSessionHistory: user_id plus inclusive start_time bounds. -/
def getUserSessionHistory (st : DBState) (userID : String)
    (startDate endDate : Option Int) : List TimeSession :=
  st.sessions.filter (fun s =>
    s.userID == userID &&
    (match startDate with | none => true | some d => decide (d ≤ s.startTime)) &&
    (match endDate with | none => true | some d => decide (s.startTime ≤ d)))

/-- The session set GenerateUserTimeReport folds over: the user's history
in the window, restricted to one project when projectID > 0. -/
def reportedSessions (st : DBState) (userID : String) (projectID : Nat)
    (startDate endDate : Int) : List TimeSession :=
  let sessions := getUserSessionHistory st userID (some startDate) (some endDate)
  if 0 < projectID then sessions.filter (fun s => s.projectID == projectID) else sessions

/-- The loop body of GenerateUserTimeReport. -/
def foldSessionIntoReport (now : Int) (report : UserTimeReport) (session : TimeSession) :
    UserTimeReport :=
  let duration := calculateSessionDuration session now
  let hours : Rat := (duration : Rat) / 60
  let report1 :=
    if session.sessionType == SessionTypeWork then
      { report with totalHours := report.totalHours + hours }
    else
      { report with breakMinutes := report.breakMinutes + duration }
  if report1.lastSession < session.createdAt then
    { report1 with lastSession := session.createdAt }
  else
    report1

/-- days := endDate.Sub(startDate).Hours() / 24, as an exact rational. -/
def daysInWindow (startDate endDate : Int) : Rat :=
  ((endDate - startDate : Int) : Rat) / 1440

/-- GenerateUserTimeReport. -/
def generateUserTimeReport (st : DBState) (userID : String) (projectID : Nat)
    (startDate endDate : Int) (now : Int) : UserTimeReport :=
  let sessions := reportedSessions st userID projectID startDate endDate
  let report : UserTimeReport :=
    { userID := userID
      projectID := projectID
      companyID := ""
      totalHours := 0
      workSessions := (sessions.length : Int)
      breakMinutes := 0
      productiveHours := 0
      lastSession := 0
      averageDaily := 0 }
  let folded := sessions.foldl (foldSessionIntoReport now) report
  let folded2 := { folded with
    productiveHours := folded.totalHours - (folded.breakMinutes : Rat) / 60 }
  let days := daysInWindow startDate endDate
  if 0 < days then
    { folded2 with averageDaily := folded2.totalHours / days }
  else
    folded2

/-- GetProjectCostReport (request-scoped variant; the older variant in the
projects service is identical in the modelled fields). -/
def getProjectCostReport (st : DBState) (projectID : Nat) :
    Except SvcError ProjectTimeReport :=
  match findProjectByID st projectID with
  | none => Except.error SvcError.notFound
  | some project =>
    let sessions := st.sessions.filter (fun s => s.projectID == projectID)
    let report : ProjectTimeReport :=
      { projectID := projectID
        projectTitle := "Professional Project " ++ toString projectID
        companyID := ""
        totalHours := project.totalHours
        totalCost := project.totalSalaryCost
        workSessions := (sessions.length : Int)
        averageSession := 0
        lastActivity := 0
        activeWorkers := 0 }
    if 0 < sessions.length then
      let report1 := { report with
        averageSession := project.totalHours / (sessions.length : Rat) }
      Except.ok { report1 with
        lastActivity := sessions.foldl
          (fun acc s => if acc < s.createdAt then s.createdAt else acc) report1.lastActivity }
    else
      Except.ok report

/-- Spec-side definition, from the words of the spec: the number of
distinct worker IDs among a list of sessions. -/
def specDistinctWorkerCount (sessions : List TimeSession) : Nat :=
  (sessions.map (fun s => s.userID)).dedup.length

/-- Spec-side definition, from the words of the spec: the summed hours of
the work-kind sessions of a list. -/
def specWorkHoursSum (sessions : List TimeSession) (now : Int) : Rat :=
  match sessions with
  | [] => 0
  | s :: rest =>
    (if s.sessionType == SessionTypeWork then ((calculateSessionDuration s now : Int) : Rat) / 60 else 0)
      + specWorkHoursSum rest now

/-- A closed work-kind session used in concrete scenarios. -/
def exWorkSession : TimeSession :=
  { id := 1, projectID := 7, projectAssignmentID := none, userID := "u1", companyID := "acme",
    startTime := 0, endTime := some 60, sessionType := "work", durationMinutes := 60,
    hourlyRate := none, sessionCost := 0, notes := none, isActive := false,
    createdAt := 5, updatedAt := 60 }

/-- A closed break-kind session used in concrete scenarios. -/
def exBreakSession : TimeSession :=
  { exWorkSession with sessionType := "break" }

/-- State with one break-kind session on record. -/
def stBreakOnly : DBState :=
  { sessions := [exBreakSession], breaks := [], activeSessions := [], projects := [],
    nextSessionID := 2, nextBreakID := 1 }

/-- State with one closed work session on record. -/
def stWorkOnly : DBState :=
  { sessions := [exWorkSession], breaks := [], activeSessions := [], projects := [],
    nextSessionID := 2, nextBreakID := 1 }

/-- The registered project used in concrete scenarios. -/
def exProject : ProfessionalProject :=
  { id := 7, baseProjectID := "bp7", title := "proj", clientName := none,
    totalSalaryCost := 0, totalHours := 2, isActive := true, createdAt := 0, updatedAt := 0 }

/-- State for scenario A: registered project 7, nothing else. -/
def stScenarioA : DBState :=
  { sessions := [], breaks := [], activeSessions := [], projects := [exProject],
    nextSessionID := 1, nextBreakID := 1 }

/-- State with a project and one session of a single worker. -/
def stOneWorker : DBState :=
  { sessions := [exWorkSession], breaks := [], activeSessions := [], projects := [exProject],
    nextSessionID := 2, nextBreakID := 1 }

def exOpenSession : TimeSession :=
  { exWorkSession with endTime := none, isActive := true }

def exPointer : UserActiveSession :=
  { userID := "u1", sessionID := 1, companyID := "acme", projectID := 7, startedAt := 0,
    lastActivityAt := 0, isOnBreak := false, currentBreakID := none, updatedAt := 0 }

def stHasActive : DBState :=
  { sessions := [exOpenSession], breaks := [], activeSessions := [exPointer],
    projects := [exProject], nextSessionID := 2, nextBreakID := 1 }

instance {ε α : Type} [DecidableEq ε] [DecidableEq α] : DecidableEq (Except ε α) := fun a b =>
  match a, b with
  | Except.ok x, Except.ok y =>
    if h : x = y then isTrue (by rw [h]) else isFalse (by intro hc; cases hc; exact h rfl)
  | Except.error x, Except.error y =>
    if h : x = y then isTrue (by rw [h]) else isFalse (by intro hc; cases hc; exact h rfl)
  | Except.ok _, Except.error _ => isFalse (by intro hc; cases hc)
  | Except.error _, Except.ok _ => isFalse (by intro hc; cases hc)

/-- Empty database. -/
def stEmpty : DBState :=
  { sessions := [], breaks := [], activeSessions := [], projects := [],
    nextSessionID := 1, nextBreakID := 1 }

/-- Pointer that is on a break. -/
def exBreakRecord : SessionBreak :=
  { id := 1, sessionID := 1, breakType := "lunch", startTime := 10, endTime := none,
    durationMinutes := 0, isActive := true, createdAt := 10 }

def exPointerOnBreak : UserActiveSession :=
  { exPointer with isOnBreak := true, currentBreakID := some 1 }

def stOnBreak : DBState :=
  { sessions := [exOpenSession], breaks := [exBreakRecord],
    activeSessions := [exPointerOnBreak], projects := [exProject],
    nextSessionID := 2, nextBreakID := 2 }

/-- The concrete state after finishing the running session of stHasActive. -/
def stAfterFinishW : DBState := (finishWorkSession stHasActive "u1" 90).2

def curW : TimeSession := closeSession exOpenSession 90

/-- Spec invariant: a session is open (null end time) exactly when its
active flag is set. -/
def sessionsOpenIffActive (st : DBState) : Prop :=
  ∀ s ∈ st.sessions, (s.endTime = none ↔ s.isActive = true)

/-- Spec invariant, first direction: every active-session pointer
references an existing open session. -/
def pointersSound (st : DBState) : Prop :=
  ∀ i ∈ st.activeSessions.map (fun a => a.sessionID),
    ∃ s, s ∈ st.sessions ∧ s.id = i ∧ s.endTime = none

/-- Spec invariant, second direction: every open session is referenced by
an active-session pointer. -/
def openSessionsPointed (st : DBState) : Prop :=
  ∀ s ∈ st.sessions, s.endTime = none →
    s.id ∈ st.activeSessions.map (fun a => a.sessionID)

/-- Structural well-formedness of the database: primary keys are unique,
the gorm id counter dominates all session ids, pointers have distinct
users and distinct session references. -/
def sessionIdsBounded (st : DBState) : Prop :=
  ∀ s ∈ st.sessions, s.id < st.nextSessionID

def sessionIdsNodup (st : DBState) : Prop :=
  (st.sessions.map (fun s => s.id)).Nodup

def pointerUsersNodup (st : DBState) : Prop :=
  (st.activeSessions.map (fun a => a.userID)).Nodup

def pointerSessionIdsNodup (st : DBState) : Prop :=
  (st.activeSessions.map (fun a => a.sessionID)).Nodup

/-- The inductive invariant of the engine state. -/
def Inv (st : DBState) : Prop :=
  sessionsOpenIffActive st ∧ pointersSound st ∧ openSessionsPointed st ∧
  sessionIdsBounded st ∧ sessionIdsNodup st ∧ pointerUsersNodup st ∧
  pointerSessionIdsNodup st

theorem foldSessionIntoReport_workSessions (now : Int) (r : UserTimeReport) (s : TimeSession) :
    (foldSessionIntoReport now r s).workSessions = r.workSessions := by
  unfold foldSessionIntoReport
  dsimp only
  split <;> split <;> rfl

theorem foldSessionIntoReport_averageDaily (now : Int) (r : UserTimeReport) (s : TimeSession) :
    (foldSessionIntoReport now r s).averageDaily = r.averageDaily := by
  unfold foldSessionIntoReport
  dsimp only
  split <;> split <;> rfl

theorem foldSessionIntoReport_totalHours (now : Int) (r : UserTimeReport) (s : TimeSession) :
    (foldSessionIntoReport now r s).totalHours =
      r.totalHours +
        (if s.sessionType == SessionTypeWork
         then ((calculateSessionDuration s now : Int) : Rat) / 60 else 0) := by
  unfold foldSessionIntoReport
  dsimp only
  by_cases h : s.sessionType == SessionTypeWork
  · simp only [h, if_true]
    split <;> rfl
  · simp only [h, if_false, Bool.false_eq_true]
    split <;> simp

theorem foldl_report_workSessions (now : Int) (l : List TimeSession) (r : UserTimeReport) :
    (l.foldl (foldSessionIntoReport now) r).workSessions = r.workSessions := by
  induction l generalizing r with
  | nil => rfl
  | cons s t ih => rw [List.foldl_cons, ih, foldSessionIntoReport_workSessions]

theorem foldl_report_averageDaily (now : Int) (l : List TimeSession) (r : UserTimeReport) :
    (l.foldl (foldSessionIntoReport now) r).averageDaily = r.averageDaily := by
  induction l generalizing r with
  | nil => rfl
  | cons s t ih => rw [List.foldl_cons, ih, foldSessionIntoReport_averageDaily]

theorem foldl_report_totalHours (now : Int) (l : List TimeSession) (r : UserTimeReport) :
    (l.foldl (foldSessionIntoReport now) r).totalHours = r.totalHours + specWorkHoursSum l now := by
  induction l generalizing r with
  | nil => simp [specWorkHoursSum]
  | cons s t ih =>
    rw [List.foldl_cons, ih, foldSessionIntoReport_totalHours, specWorkHoursSum]
    ring

theorem generateUserTimeReport_workSessions (st : DBState) (u : String) (p : Nat)
    (a b now : Int) :
    (generateUserTimeReport st u p a b now).workSessions =
      ((reportedSessions st u p a b).length : Int) := by
  unfold generateUserTimeReport
  dsimp only
  split
  · rw [foldl_report_workSessions]
  · rw [foldl_report_workSessions]

theorem generateUserTimeReport_totalHours (st : DBState) (u : String) (p : Nat)
    (a b now : Int) :
    (generateUserTimeReport st u p a b now).totalHours =
      specWorkHoursSum (reportedSessions st u p a b) now := by
  unfold generateUserTimeReport
  dsimp only
  split
  · rw [foldl_report_totalHours]; ring
  · rw [foldl_report_totalHours]; ring

theorem generateUserTimeReport_averageDaily (st : DBState) (u : String) (p : Nat)
    (a b now : Int) :
    (generateUserTimeReport st u p a b now).averageDaily =
      if 0 < daysInWindow a b
      then (generateUserTimeReport st u p a b now).totalHours / daysInWindow a b
      else 0 := by
  rw [generateUserTimeReport_totalHours]
  unfold generateUserTimeReport
  dsimp only
  split
  · rw [foldl_report_totalHours]; ring
  · rw [foldl_report_averageDaily]

/-- C3, counterexample: in a window holding one break-kind session the
report's work_sessions field is 1, while the number of work-kind rows in
the reported set is 0 - the field counts every row, not only work-kind
ones. -/
theorem c3_counterexample :
    (generateUserTimeReport stBreakOnly "u1" 0 0 100 200).workSessions = 1 ∧
    (((reportedSessions stBreakOnly "u1" 0 0 100).filter
        (fun s => s.sessionType == SessionTypeWork)).length : Int) = 0 ∧
    (1 : Int) ≠ 0 := by
  refine ⟨?_, ?_, by norm_num⟩
  · rw [generateUserTimeReport_workSessions]
    norm_num [reportedSessions, getUserSessionHistory, stBreakOnly, exBreakSession,
      exWorkSession, List.filter]
  · decide

/-- C3, amended: for every user report, the work_sessions field produced
by GenerateUserTimeReport equals the total number of sessions in the
(optionally project-filtered) set, break-kind rows included, rather than
the number of work-kind rows alone. -/
theorem c3_work_sessions_counts_all_rows (st : DBState) (u : String) (p : Nat)
    (a b now : Int) :
    (generateUserTimeReport st u p a b now).workSessions =
      ((reportedSessions st u p a b).length : Int) :=
  generateUserTimeReport_workSessions st u p a b now

/-- C4, counterexample: a window with start_date = end_date containing
one 60-minute work session yields total_hours = 1 but average_daily = 0,
not average_daily = total_hours as the claim (via max(1, days)) requires. -/
theorem c4_counterexample :
    (generateUserTimeReport stWorkOnly "u1" 0 0 0 200).totalHours = 1 ∧
    (generateUserTimeReport stWorkOnly "u1" 0 0 0 200).averageDaily = 0 ∧
    (1 : Rat) ≠ 0 := by
  refine ⟨?_, ?_, by norm_num⟩
  · rw [generateUserTimeReport_totalHours]
    norm_num [reportedSessions, getUserSessionHistory, stWorkOnly, exWorkSession,
      specWorkHoursSum, calculateSessionDuration, SessionTypeWork, List.filter]
  · rw [generateUserTimeReport_averageDaily]
    norm_num [daysInWindow]

/-- C4, amended: average_daily equals total_hours divided by the exact
fractional day count of the window when that count is positive, and 0
otherwise; in particular a zero-day window yields 0 (and no
division-by-zero fault occurs, since the guarded branch is never taken). -/
theorem c4_average_daily_zero_window (st : DBState) (u : String) (p : Nat)
    (a b now : Int) :
    (generateUserTimeReport st u p a b now).averageDaily =
      (if 0 < daysInWindow a b
       then (generateUserTimeReport st u p a b now).totalHours / daysInWindow a b
       else 0) :=
  generateUserTimeReport_averageDaily st u p a b now

/-- C10: GenerateUserTimeReport treats projectID = 0 as the no-filter
sentinel - the whole windowed history is folded - while any projectID > 0
restricts the fold to sessions of that project, witnessed here through
the work_sessions count and the total_hours sum. -/
theorem c10_project_filter_sentinel (st : DBState) (u : String) (p : Nat)
    (a b now : Int) :
    ((generateUserTimeReport st u 0 a b now).workSessions =
        ((getUserSessionHistory st u (some a) (some b)).length : Int)) ∧
    ((generateUserTimeReport st u 0 a b now).totalHours =
        specWorkHoursSum (getUserSessionHistory st u (some a) (some b)) now) ∧
    (0 < p →
      (generateUserTimeReport st u p a b now).workSessions =
        (((getUserSessionHistory st u (some a) (some b)).filter
            (fun s => s.projectID == p)).length : Int)) ∧
    (0 < p →
      (generateUserTimeReport st u p a b now).totalHours =
        specWorkHoursSum ((getUserSessionHistory st u (some a) (some b)).filter
            (fun s => s.projectID == p)) now) := by
  refine ⟨?_, ?_, fun hp => ?_, fun hp => ?_⟩
  · rw [generateUserTimeReport_workSessions, reportedSessions]
    simp
  · rw [generateUserTimeReport_totalHours, reportedSessions]
    simp
  · rw [generateUserTimeReport_workSessions, reportedSessions]
    simp [hp]
  · rw [generateUserTimeReport_totalHours, reportedSessions]
    simp [hp]

theorem c10_witness :
    (0 < 7 → (generateUserTimeReport stWorkOnly "u1" 7 0 100 200).workSessions =
      (((getUserSessionHistory stWorkOnly "u1" (some 0) (some 100)).filter
          (fun s => s.projectID == 7)).length : Int)) ∧
    (generateUserTimeReport stWorkOnly "u1" 7 0 100 200).workSessions =
      (((getUserSessionHistory stWorkOnly "u1" (some 0) (some 100)).filter
          (fun s => s.projectID == 7)).length : Int) :=
  ⟨(c10_project_filter_sentinel stWorkOnly "u1" 7 0 100 200).2.2.1,
   (c10_project_filter_sentinel stWorkOnly "u1" 7 0 100 200).2.2.1 (by decide)⟩

/-- C8: the computed cost of a session is 0 when no hourly rate is
snapshotted and (duration_minutes/60) * rate otherwise, and the concrete
scenario start(rate 50) followed by finish 90 minutes later produces
duration 90 and cost 75. -/
theorem c8_cost_formula (session : TimeSession) (now : Int) :
    (calculateSessionCost session now =
      match session.hourlyRate with
      | none => 0
      | some rate => ((calculateSessionDuration session now : Int) : Rat) / 60 * rate) ∧
    ((finishWorkSession (startWorkSession stScenarioA 7 "acme" "u1" (some 50) 0 true).2
        "u1" 90).1.toOption.map (fun s => (s.durationMinutes, s.sessionCost)) =
      some ((90 : Int), (75 : Rat))) := by
  constructor
  · rfl
  · norm_num [startWorkSession, finishWorkSession, finishSessionUpdate, closeSession,
      calculateSessionDuration, calculateSessionCost, getActiveSession, hasActiveSession,
      findProjectByID, findSessionByID, newWorkSession, newActiveSessionRecord, stScenarioA,
      exProject, List.filter, Except.toOption]

/-- C5, counterexample: a project with one session of one worker yields
a cost report whose active_workers field is 0 even though the number of
distinct worker IDs with sessions is 1 - the field is never computed. -/
theorem c5_counterexample :
    (getProjectCostReport stOneWorker 7).toOption.map (fun r => r.activeWorkers) =
      some (0 : Int) ∧
    specDistinctWorkerCount (stOneWorker.sessions.filter (fun s => s.projectID == 7)) = 1 ∧
    (0 : Int) ≠ (1 : Int) := by
  refine ⟨?_, by decide, by norm_num⟩
  norm_num [getProjectCostReport, findProjectByID, stOneWorker, exProject, exWorkSession,
    List.filter, Except.toOption]

/-- C5, amended: for every project with at least one session the cost
report exposes average_session = total_hours / session_count (with
total_hours the project's stored aggregate), but active_workers is left
at the constant 0 and is not computed from the session set. -/
theorem c5_project_report (st : DBState) (p : Nat) (proj : ProfessionalProject)
    (hp : findProjectByID st p = some proj)
    (hn : 0 < (st.sessions.filter (fun s => s.projectID == p)).length) :
    (getProjectCostReport st p).toOption.map
        (fun r => (r.totalHours, r.averageSession, r.workSessions, r.activeWorkers)) =
      some (proj.totalHours,
            proj.totalHours / ((st.sessions.filter (fun s => s.projectID == p)).length : Rat),
            ((st.sessions.filter (fun s => s.projectID == p)).length : Int),
            (0 : Int)) := by
  unfold getProjectCostReport
  rw [hp]
  dsimp only
  rw [if_pos hn]
  rfl

theorem c5_witness :
    (getProjectCostReport stOneWorker 7).toOption.map
        (fun r => (r.totalHours, r.averageSession, r.workSessions, r.activeWorkers)) =
      some (exProject.totalHours,
            exProject.totalHours /
              ((stOneWorker.sessions.filter (fun s => s.projectID == 7)).length : Rat),
            ((stOneWorker.sessions.filter (fun s => s.projectID == 7)).length : Int),
            (0 : Int)) :=
  c5_project_report stOneWorker 7 exProject (by decide) (by decide)

theorem head_filter_spec {α : Type} (l : List α) (p : α → Bool) (x : α)
    (h : (l.filter p).head? = some x) : x ∈ l ∧ p x = true := by
  have hx : x ∈ l.filter p := by
    cases hf : l.filter p with
    | nil => rw [hf] at h; cases h
    | cons y t =>
      rw [hf] at h
      simp only [List.head?_cons, Option.some.injEq] at h
      subst h
      exact List.mem_cons_self y t
  exact ⟨(List.mem_filter.1 hx).1, (List.mem_filter.1 hx).2⟩

theorem getActiveSession_ok_spec (st : DBState) (u : String) (a : UserActiveSession)
    (h : getActiveSession st u = Except.ok a) : a ∈ st.activeSessions ∧ a.userID = u := by
  unfold getActiveSession at h
  cases hf : (st.activeSessions.filter (fun x => x.userID == u)).head? with
  | none => rw [hf] at h; cases h
  | some b =>
    rw [hf] at h
    simp only [Except.ok.injEq] at h
    obtain ⟨hmem, hbeq⟩ := head_filter_spec _ _ _ hf
    rw [h] at hmem hbeq
    exact ⟨hmem, by simpa using hbeq⟩

theorem hasActiveSession_false_filter (st : DBState) (u : String)
    (h : hasActiveSession st u = false) :
    st.activeSessions.filter (fun x => x.userID == u) = [] := by
  unfold hasActiveSession at h
  simp only [decide_eq_false_iff_not, Nat.pos_iff_ne_zero, ne_eq, not_not] at h
  exact List.length_eq_zero.1 h

theorem getActiveSession_of_hasActive_false (st : DBState) (u : String)
    (h : hasActiveSession st u = false) :
    getActiveSession st u = Except.error SvcError.notFound := by
  unfold getActiveSession
  rw [hasActiveSession_false_filter st u h]
  rfl

theorem append_new_filter_out (l : List TimeSession) (n : Nat) (s : TimeSession)
    (hs : s.id = n) (hb : ∀ x ∈ l, x.id ≠ n) :
    (l ++ [s]).filter (fun x => x.id != n) = l := by
  rw [List.filter_append]
  have h1 : l.filter (fun x => x.id != n) = l :=
    List.filter_eq_self.2 (fun x hx => by simpa using hb x hx)
  have h2 : [s].filter (fun x => x.id != n) = [] := by simp [hs]
  rw [h1, h2, List.append_nil]

/-- C1: StartWorkSession fails with Conflict and leaves the state
unchanged when the user already has an ActiveSessionPointer; otherwise
(the project existing) it creates a work-kind TimeSession with active =
true and a null end time together with a pointer referencing it, and when
creating the pointer fails the just-created session is deleted again so
that sessions and pointers both end up exactly as before. -/
theorem c1_start_conflict_and_atomicity (st : DBState) (p : Nat) (c u : String)
    (r : Option Rat) (now : Int) (ok : Bool) :
    (hasActiveSession st u = true →
       startWorkSession st p c u r now ok = (Except.error SvcError.conflict, st)) ∧
    (hasActiveSession st u = false → (findProjectByID st p).isSome = true →
       startWorkSession st p c u r now true =
         (Except.ok (newWorkSession st p c u r now),
          { st with
              sessions := st.sessions ++ [newWorkSession st p c u r now],
              activeSessions := st.activeSessions ++ [newActiveSessionRecord st p c u now],
              nextSessionID := st.nextSessionID + 1 }) ∧
       (newWorkSession st p c u r now).sessionType = SessionTypeWork ∧
       (newWorkSession st p c u r now).isActive = true ∧
       (newWorkSession st p c u r now).endTime = none ∧
       (newActiveSessionRecord st p c u now).sessionID = (newWorkSession st p c u r now).id ∧
       (newActiveSessionRecord st p c u now).userID = u) ∧
    (hasActiveSession st u = false → (findProjectByID st p).isSome = true →
       (∀ s ∈ st.sessions, s.id < st.nextSessionID) →
       (startWorkSession st p c u r now false).1 = Except.error SvcError.internalError ∧
       (startWorkSession st p c u r now false).2.sessions = st.sessions ∧
       (startWorkSession st p c u r now false).2.activeSessions = st.activeSessions) := by
  refine ⟨fun h => ?_, fun h hp => ?_, fun h hp hb => ?_⟩
  · unfold startWorkSession
    rw [if_pos h]
  · obtain ⟨proj, hproj⟩ := Option.isSome_iff_exists.1 hp
    unfold startWorkSession
    rw [if_neg (by simp [h]), hproj]
    exact ⟨rfl, rfl, rfl, rfl, rfl, rfl⟩
  · obtain ⟨proj, hproj⟩ := Option.isSome_iff_exists.1 hp
    unfold startWorkSession
    rw [if_neg (by simp [h]), hproj]
    refine ⟨rfl, ?_, rfl⟩
    dsimp only
    exact append_new_filter_out st.sessions st.nextSessionID _ rfl
      (fun x hx => Nat.ne_of_lt (hb x hx))

theorem c1_witness :
    (startWorkSession stHasActive 7 "acme" "u1" none 0 true =
      (Except.error SvcError.conflict, stHasActive)) ∧
    (startWorkSession stScenarioA 7 "acme" "u1" none 0 true =
      (Except.ok (newWorkSession stScenarioA 7 "acme" "u1" none 0),
       { stScenarioA with
           sessions := stScenarioA.sessions ++ [newWorkSession stScenarioA 7 "acme" "u1" none 0],
           activeSessions :=
             stScenarioA.activeSessions ++ [newActiveSessionRecord stScenarioA 7 "acme" "u1" 0],
           nextSessionID := stScenarioA.nextSessionID + 1 })) ∧
    ((startWorkSession stScenarioA 7 "acme" "u1" none 0 false).2.sessions =
      stScenarioA.sessions) :=
  ⟨(c1_start_conflict_and_atomicity stHasActive 7 "acme" "u1" none 0 true).1 (by decide),
   ((c1_start_conflict_and_atomicity stScenarioA 7 "acme" "u1" none 0 true).2.1
      (by decide) (by decide)).1,
   ((c1_start_conflict_and_atomicity stScenarioA 7 "acme" "u1" none 0 false).2.2
      (by decide) (by decide) (by decide)).2.1⟩

theorem findSessionByID_spec (st : DBState) (i : Nat) (s : TimeSession)
    (h : findSessionByID st i = some s) : s ∈ st.sessions ∧ s.id = i := by
  obtain ⟨hmem, hp⟩ := head_filter_spec _ _ _ h
  exact ⟨hmem, by simpa using hp⟩

theorem findBreakByID_spec (st : DBState) (i : Nat) (b : SessionBreak)
    (h : findBreakByID st i = some b) : b ∈ st.breaks ∧ b.id = i := by
  obtain ⟨hmem, hp⟩ := head_filter_spec _ _ _ h
  exact ⟨hmem, by simpa using hp⟩

@[simp] theorem closeBreak_id (b : SessionBreak) (now : Int) : (closeBreak b now).id = b.id := rfl

@[simp] theorem closeSession_id (s : TimeSession) (now : Int) :
    (closeSession s now).id = s.id := rfl

@[simp] theorem clearBreakOnPointer_userID (a : UserActiveSession) (now : Int) :
    (clearBreakOnPointer a now).userID = a.userID := rfl

theorem map_then_filter_userID (l : List UserActiveSession) (a2 : UserActiveSession)
    (u : String) (ha : a2.userID = u) :
    (l.map (fun x => if x.userID == u then a2 else x)).filter (fun x => x.userID != u) =
      l.filter (fun x => x.userID != u) := by
  induction l with
  | nil => rfl
  | cons x t ih =>
    by_cases h : x.userID = u
    · simp only [List.map_cons, List.filter_cons, h, ha, beq_self_eq_true, if_true,
        bne_self_eq_false, Bool.false_eq_true, if_false, ih]
    · have hb : (x.userID == u) = false := by simpa using h
      have hb2 : (x.userID != u) = true := by simpa using h
      simp only [List.map_cons, List.filter_cons, hb, Bool.false_eq_true, if_false, hb2,
        if_true, ih]

/-- C2: FinishWorkSession fails with NotFound when no
ActiveSessionPointer exists; when one exists it closes the referenced
session (end time now, active false, duration and cost recomputed from
the recorded interval), persists it, deletes the pointer, and returns the
closed session - first force-ending the open break when the pointer shows
one. -/
theorem c2_finish_behavior (st : DBState) (u : String) (now : Int) :
    (hasActiveSession st u = false →
       finishWorkSession st u now = (Except.error SvcError.notFound, st)) ∧
    (∀ a sess, getActiveSession st u = Except.ok a →
       a.isOnBreak = false →
       findSessionByID st a.sessionID = some sess →
       finishWorkSession st u now =
         (Except.ok (closeSession sess now),
          { st with
              sessions := st.sessions.map
                (fun s => if s.id == (closeSession sess now).id then closeSession sess now
                          else s),
              activeSessions := st.activeSessions.filter (fun x => x.userID != u) }) ∧
       (closeSession sess now).endTime = some now ∧
       (closeSession sess now).isActive = false ∧
       (closeSession sess now).durationMinutes = now - sess.startTime ∧
       (closeSession sess now).sessionCost =
         (match sess.hourlyRate with
          | none => 0
          | some rate => ((now - sess.startTime : Int) : Rat) / 60 * rate)) ∧
    (∀ a bid br sess, getActiveSession st u = Except.ok a →
       a.isOnBreak = true →
       a.currentBreakID = some bid →
       findBreakByID st bid = some br →
       findSessionByID st a.sessionID = some sess →
       (finishWorkSession st u now).1 = Except.ok (closeSession sess now) ∧
       (finishWorkSession st u now).2.activeSessions =
         st.activeSessions.filter (fun x => x.userID != u) ∧
       closeBreak br now ∈ (finishWorkSession st u now).2.breaks ∧
       (closeBreak br now).isActive = false ∧
       (closeBreak br now).endTime = some now) := by
  refine ⟨fun h => ?_, fun a sess ha hob hsess => ?_, fun a bid br sess ha hob hbid hbr hsess => ?_⟩
  · unfold finishWorkSession
    rw [getActiveSession_of_hasActive_false st u h]
  · have hu : a.userID = u := (getActiveSession_ok_spec st u a ha).2
    unfold finishWorkSession
    rw [ha]
    dsimp only
    rw [if_neg (by simp [hob])]
    unfold finishSessionUpdate
    rw [hsess]
    dsimp only
    rw [hu]
    exact ⟨rfl, rfl, rfl, rfl, rfl⟩
  · have hu : a.userID = u := (getActiveSession_ok_spec st u a ha).2
    unfold finishWorkSession
    rw [ha]
    dsimp only
    rw [if_pos (by simp [hob, hbid])]
    have hend : endBreak st u now =
        (Except.ok (closeBreak br now),
         { st with
             breaks := st.breaks.map
               (fun b => if b.id == (closeBreak br now).id then closeBreak br now else b),
             activeSessions := st.activeSessions.map
               (fun x => if x.userID == (clearBreakOnPointer a now).userID
                         then clearBreakOnPointer a now else x) }) := by
      unfold endBreak
      rw [ha]
      dsimp only
      rw [if_neg (by simp [hob, hbid]), hbid]
      dsimp only
      rw [hbr]
    rw [hend]
    dsimp only
    unfold finishSessionUpdate
    rw [show findSessionByID
          { st with
              breaks := st.breaks.map
                (fun b => if b.id == (closeBreak br now).id then closeBreak br now else b),
              activeSessions := st.activeSessions.map
                (fun x => if x.userID == (clearBreakOnPointer a now).userID
                          then clearBreakOnPointer a now else x) } a.sessionID =
        some sess from hsess]
    dsimp only
    refine ⟨rfl, ?_, ?_, rfl, rfl⟩
    · have : (clearBreakOnPointer a now).userID = u := by
        simp [clearBreakOnPointer, hu]
      rw [this, hu]
      exact map_then_filter_userID st.activeSessions (clearBreakOnPointer a now) u this
    · obtain ⟨hmem, hid⟩ := findBreakByID_spec st bid br hbr
      exact List.mem_map.2 ⟨br, hmem, by simp⟩

theorem c2_witness :
    (finishWorkSession stEmpty "u1" 90 = (Except.error SvcError.notFound, stEmpty)) ∧
    (finishWorkSession stHasActive "u1" 90 =
      (Except.ok (closeSession exOpenSession 90),
       { stHasActive with
           sessions := stHasActive.sessions.map
             (fun s => if s.id == (closeSession exOpenSession 90).id
                       then closeSession exOpenSession 90 else s),
           activeSessions := stHasActive.activeSessions.filter
             (fun x => x.userID != "u1") }) ∧
      (closeSession exOpenSession 90).endTime = some 90 ∧
      (closeSession exOpenSession 90).isActive = false ∧
      (closeSession exOpenSession 90).durationMinutes = 90 - exOpenSession.startTime ∧
      (closeSession exOpenSession 90).sessionCost =
        (match exOpenSession.hourlyRate with
         | none => 0
         | some rate => ((90 - exOpenSession.startTime : Int) : Rat) / 60 * rate)) ∧
    (closeBreak exBreakRecord 90 ∈ (finishWorkSession stOnBreak "u1" 90).2.breaks) :=
  ⟨(c2_finish_behavior stEmpty "u1" 90).1 (by decide),
   (c2_finish_behavior stHasActive "u1" 90).2.1 exPointer exOpenSession rfl rfl rfl,
   ((c2_finish_behavior stOnBreak "u1" 90).2.2 exPointerOnBreak 1 exBreakRecord
      exOpenSession rfl rfl rfl rfl rfl).2.2.1⟩

/-- C6, counterexample: the kind string "break" is outside the claimed
valid set {short, lunch, brb} yet TakeBreak accepts it, while the claimed
member "short" is rejected with InvalidArgument - the stored constant
BreakTypeShort is the string "break". -/
theorem c6_counterexample :
    (takeBreak stHasActive "u1" "break" 5).1 =
      Except.ok (newBreakRecord stHasActive exPointer "break" 5) ∧
    ¬("break" = "short" ∨ "break" = "lunch" ∨ "break" = "brb") ∧
    takeBreak stHasActive "u1" "short" 5 =
      (Except.error SvcError.invalidArgument, stHasActive) := by
  refine ⟨by decide, by decide, by decide⟩

/-- C6, amended: with an ActiveSessionPointer present, TakeBreak fails
with Conflict when on_break is already set, fails with InvalidArgument
when the kind is not one of {"break", "lunch", "brb"} (the stored values
of the short/lunch/brb constants), and otherwise creates an open Break
row under the active session, sets the pointer's on_break flag and break
reference, and updates last_activity. -/
theorem c6_take_break_behavior (st : DBState) (u bk : String) (now : Int)
    (a : UserActiveSession) (ha : getActiveSession st u = Except.ok a) :
    (a.isOnBreak = true → takeBreak st u bk now = (Except.error SvcError.conflict, st)) ∧
    (a.isOnBreak = false → isValidBreakType bk = false →
       takeBreak st u bk now = (Except.error SvcError.invalidArgument, st)) ∧
    (a.isOnBreak = false → isValidBreakType bk = true →
       takeBreak st u bk now =
         (Except.ok (newBreakRecord st a bk now),
          { st with
              breaks := st.breaks ++ [newBreakRecord st a bk now],
              nextBreakID := st.nextBreakID + 1,
              activeSessions := st.activeSessions.map
                (fun x => if x.userID == (setBreakOnPointer a (newBreakRecord st a bk now).id
                                            now).userID
                          then setBreakOnPointer a (newBreakRecord st a bk now).id now
                          else x) }) ∧
       (newBreakRecord st a bk now).isActive = true ∧
       (newBreakRecord st a bk now).endTime = none ∧
       (newBreakRecord st a bk now).sessionID = a.sessionID ∧
       (setBreakOnPointer a (newBreakRecord st a bk now).id now).isOnBreak = true ∧
       (setBreakOnPointer a (newBreakRecord st a bk now).id now).currentBreakID =
         some (newBreakRecord st a bk now).id ∧
       (setBreakOnPointer a (newBreakRecord st a bk now).id now).lastActivityAt = now) ∧
    (isValidBreakType bk = true ↔
       (bk = BreakTypeShort ∨ bk = BreakTypeLunch ∨ bk = BreakTypeBRB)) := by
  refine ⟨fun hob => ?_, fun hob hv => ?_, fun hob hv => ?_, ?_⟩
  · unfold takeBreak
    rw [ha]
    dsimp only
    rw [if_pos hob]
  · unfold takeBreak
    rw [ha]
    dsimp only
    rw [if_neg (by simp [hob]), if_pos (by simp [hv])]
  · unfold takeBreak
    rw [ha]
    dsimp only
    rw [if_neg (by simp [hob]), if_neg (by simp [hv])]
    exact ⟨rfl, rfl, rfl, rfl, rfl, rfl, rfl⟩
  · simp [isValidBreakType, BreakTypeShort, BreakTypeLunch, BreakTypeBRB]

theorem c6_witness :
    (takeBreak stOnBreak "u1" "lunch" 20 = (Except.error SvcError.conflict, stOnBreak)) ∧
    (takeBreak stHasActive "u1" "nap" 5 =
      (Except.error SvcError.invalidArgument, stHasActive)) ∧
    (takeBreak stHasActive "u1" "lunch" 5 =
      (Except.ok (newBreakRecord stHasActive exPointer "lunch" 5),
       { stHasActive with
           breaks := stHasActive.breaks ++ [newBreakRecord stHasActive exPointer "lunch" 5],
           nextBreakID := stHasActive.nextBreakID + 1,
           activeSessions := stHasActive.activeSessions.map
             (fun x => if x.userID == (setBreakOnPointer exPointer
                           (newBreakRecord stHasActive exPointer "lunch" 5).id 5).userID
                       then setBreakOnPointer exPointer
                           (newBreakRecord stHasActive exPointer "lunch" 5).id 5
                       else x) })) :=
  ⟨(c6_take_break_behavior stOnBreak "u1" "lunch" 20 exPointerOnBreak rfl).1 rfl,
   ((c6_take_break_behavior stHasActive "u1" "nap" 5 exPointer rfl).2.1 rfl (by decide)),
   ((c6_take_break_behavior stHasActive "u1" "lunch" 5 exPointer rfl).2.2.1 rfl
      (by decide)).1⟩

theorem finishSessionUpdate_ok_state (st : DBState) (a : UserActiveSession) (now : Int)
    (cur : TimeSession) (st1 : DBState)
    (h : finishSessionUpdate st a now = (Except.ok cur, st1)) :
    st1.activeSessions = st.activeSessions.filter (fun x => x.userID != a.userID) := by
  unfold finishSessionUpdate at h
  cases hs : findSessionByID st a.sessionID with
  | none => rw [hs] at h; simp at h
  | some sess =>
    rw [hs] at h
    dsimp only at h
    simp only [Prod.mk.injEq] at h
    obtain ⟨h1, h2⟩ := h
    rw [← h2]

theorem endBreak_error_state (st : DBState) (u : String) (now : Int) (e : SvcError)
    (st2 : DBState) (h : endBreak st u now = (Except.error e, st2)) : st2 = st := by
  unfold endBreak at h
  cases ha : getActiveSession st u with
  | error e2 => rw [ha] at h; simp only [Prod.mk.injEq] at h; exact h.2.symm
  | ok a =>
    rw [ha] at h
    dsimp only at h
    by_cases hg : (!a.isOnBreak || a.currentBreakID == none) = true
    · rw [if_pos hg] at h; simp only [Prod.mk.injEq] at h; exact h.2.symm
    · rw [if_neg hg] at h
      cases hbid : a.currentBreakID with
      | none => rw [hbid] at h; simp only [Prod.mk.injEq] at h; exact h.2.symm
      | some bid =>
        rw [hbid] at h
        dsimp only at h
        cases hbr : findBreakByID st bid with
        | none => rw [hbr] at h; simp only [Prod.mk.injEq] at h; exact h.2.symm
        | some br =>
          rw [hbr] at h
          dsimp only at h
          simp at h

theorem endBreak_ok_state (st : DBState) (u : String) (now : Int) (res : SessionBreak)
    (st2 : DBState) (h : endBreak st u now = (Except.ok res, st2)) :
    st2.sessions = st.sessions ∧
    st2.projects = st.projects ∧
    st2.nextSessionID = st.nextSessionID ∧
    ∃ a a2 : UserActiveSession, getActiveSession st u = Except.ok a ∧
      a2.userID = u ∧ a2.sessionID = a.sessionID ∧
      st2.activeSessions =
        st.activeSessions.map (fun x => if x.userID == u then a2 else x) := by
  unfold endBreak at h
  cases ha : getActiveSession st u with
  | error e => rw [ha] at h; simp at h
  | ok a =>
    rw [ha] at h
    dsimp only at h
    by_cases hg : (!a.isOnBreak || a.currentBreakID == none) = true
    · rw [if_pos hg] at h; simp at h
    · rw [if_neg hg] at h
      cases hbid : a.currentBreakID with
      | none => rw [hbid] at h; simp at h
      | some bid =>
        rw [hbid] at h
        dsimp only at h
        cases hbr : findBreakByID st bid with
        | none => rw [hbr] at h; simp at h
        | some br =>
          rw [hbr] at h
          dsimp only at h
          simp only [Prod.mk.injEq] at h
          obtain ⟨h1, h2⟩ := h
          have hu : a.userID = u := (getActiveSession_ok_spec st u a ha).2
          refine ⟨by rw [← h2], by rw [← h2], by rw [← h2],
            a, clearBreakOnPointer a now, rfl, by simp [hu], rfl, ?_⟩
          rw [← h2]
          simp only [clearBreakOnPointer_userID, hu]

theorem finish_ok_pointer_deleted (st : DBState) (u : String) (now : Int)
    (cur : TimeSession) (st1 : DBState)
    (h : finishWorkSession st u now = (Except.ok cur, st1)) :
    st1.activeSessions = st.activeSessions.filter (fun x => x.userID != u) := by
  unfold finishWorkSession at h
  cases ha : getActiveSession st u with
  | error e => rw [ha] at h; simp at h
  | ok a =>
    rw [ha] at h
    dsimp only at h
    have hu : a.userID = u := (getActiveSession_ok_spec st u a ha).2
    by_cases hb : (a.isOnBreak && a.currentBreakID != none) = true
    · rw [if_pos hb] at h
      cases heb : endBreak st u now with
      | mk r st2 =>
        rw [heb] at h
        cases r with
        | error e => simp at h
        | ok br =>
          dsimp only at h
          obtain ⟨hsess, hproj, hnext, a3, a2, hga, ha2u, ha2sid, hact⟩ :=
            endBreak_ok_state st u now br st2 heb
          have hdel := finishSessionUpdate_ok_state st2 a now cur st1 h
          rw [hdel, hact, hu]
          exact map_then_filter_userID st.activeSessions a2 u ha2u
    · rw [if_neg hb] at h
      have hdel := finishSessionUpdate_ok_state st a now cur st1 h
      rw [hdel, hu]

theorem filter_ne_then_eq_nil (l : List UserActiveSession) (u : String) :
    (l.filter (fun x => x.userID != u)).filter (fun x => x.userID == u) = [] := by
  induction l with
  | nil => rfl
  | cons x t ih =>
    by_cases h : x.userID = u
    · simp only [List.filter_cons, h, bne_self_eq_false, Bool.false_eq_true, if_false, ih]
    · have hb2 : (x.userID != u) = true := by simpa using h
      have hb : (x.userID == u) = false := by simpa using h
      simp only [List.filter_cons, hb2, if_true, hb, Bool.false_eq_true, if_false, ih]

theorem hasActive_of_deleted (st1 st : DBState) (u : String)
    (h : st1.activeSessions = st.activeSessions.filter (fun x => x.userID != u)) :
    hasActiveSession st1 u = false := by
  unfold hasActiveSession
  rw [h, filter_ne_then_eq_nil]
  rfl

/-- C7: SwitchProject behaves as finish followed by start, the new
session keeping the previous pointer's company ID and the closed
session's hourly rate; when finish succeeds but the subsequent start
fails, the finish is not rolled back - the state stays at the
post-finish state, where the user has no active session - and an error
is returned. -/
theorem c7_switch_project_composition (st : DBState) (u : String) (newP : Nat) (now : Int)
    (ok : Bool) (a : UserActiveSession) (ha : getActiveSession st u = Except.ok a) :
    (∀ e st1, finishWorkSession st u now = (Except.error e, st1) →
       switchProject st u newP now ok = (Except.error e, st1)) ∧
    (∀ cur st1, finishWorkSession st u now = (Except.ok cur, st1) →
       switchProject st u newP now ok =
         startWorkSession st1 newP a.companyID u cur.hourlyRate now ok ∧
       hasActiveSession st1 u = false ∧
       ((findProjectByID st1 newP).isSome = false →
          switchProject st u newP now ok = (Except.error SvcError.notFound, st1)) ∧
       (∀ pr, findProjectByID st1 newP = some pr → ok = true →
          switchProject st u newP now ok =
            (Except.ok (newWorkSession st1 newP a.companyID u cur.hourlyRate now),
             { st1 with
                 sessions := st1.sessions ++
                   [newWorkSession st1 newP a.companyID u cur.hourlyRate now],
                 activeSessions := st1.activeSessions ++
                   [newActiveSessionRecord st1 newP a.companyID u now],
                 nextSessionID := st1.nextSessionID + 1 }) ∧
          (newWorkSession st1 newP a.companyID u cur.hourlyRate now).companyID =
            a.companyID ∧
          (newWorkSession st1 newP a.companyID u cur.hourlyRate now).hourlyRate =
            cur.hourlyRate)) := by
  constructor
  · intro e st1 hfin
    unfold switchProject
    rw [ha]
    dsimp only
    rw [hfin]
  · intro cur st1 hfin
    have hstart : switchProject st u newP now ok =
        startWorkSession st1 newP a.companyID u cur.hourlyRate now ok := by
      unfold switchProject
      rw [ha]
      dsimp only
      rw [hfin]
    have hnoactive : hasActiveSession st1 u = false :=
      hasActive_of_deleted st1 st u (finish_ok_pointer_deleted st u now cur st1 hfin)
    refine ⟨hstart, hnoactive, fun hmiss => ?_, fun pr hpr hok => ?_⟩
    · have hnone : findProjectByID st1 newP = none := by
        cases hfp : findProjectByID st1 newP with
        | none => rfl
        | some pr => rw [hfp] at hmiss; simp at hmiss
      rw [hstart]
      unfold startWorkSession
      rw [if_neg (by simp [hnoactive]), hnone]
    · subst hok
      rw [hstart]
      unfold startWorkSession
      rw [if_neg (by simp [hnoactive]), hpr]
      exact ⟨rfl, rfl, rfl⟩

theorem c7_witness :
    switchProject stHasActive "u1" 7 90 true =
      startWorkSession stAfterFinishW 7 exPointer.companyID "u1" curW.hourlyRate 90 true ∧
    hasActiveSession stAfterFinishW "u1" = false :=
  ⟨(((c7_switch_project_composition stHasActive "u1" 7 90 true exPointer rfl).2
      curW stAfterFinishW rfl)).1,
   (((c7_switch_project_composition stHasActive "u1" 7 90 true exPointer rfl).2
      curW stAfterFinishW rfl)).2.1⟩

@[simp] theorem newWorkSession_id (st : DBState) (p : Nat) (c u : String) (r : Option Rat)
    (now : Int) : (newWorkSession st p c u r now).id = st.nextSessionID := rfl

@[simp] theorem newWorkSession_endTime (st : DBState) (p : Nat) (c u : String)
    (r : Option Rat) (now : Int) : (newWorkSession st p c u r now).endTime = none := rfl

@[simp] theorem newWorkSession_isActive (st : DBState) (p : Nat) (c u : String)
    (r : Option Rat) (now : Int) : (newWorkSession st p c u r now).isActive = true := rfl

@[simp] theorem newActiveSessionRecord_userID (st : DBState) (p : Nat) (c u : String)
    (now : Int) : (newActiveSessionRecord st p c u now).userID = u := rfl

@[simp] theorem newActiveSessionRecord_sessionID (st : DBState) (p : Nat) (c u : String)
    (now : Int) : (newActiveSessionRecord st p c u now).sessionID = st.nextSessionID := rfl

@[simp] theorem closeSession_endTime (s : TimeSession) (now : Int) :
    (closeSession s now).endTime = some now := rfl

@[simp] theorem closeSession_isActive (s : TimeSession) (now : Int) :
    (closeSession s now).isActive = false := rfl

theorem inv_startWorkSession (st : DBState) (p : Nat) (c u : String) (r : Option Rat)
    (now : Int) (ok : Bool) (h : Inv st) :
    Inv (startWorkSession st p c u r now ok).2 := by
  obtain ⟨hIff, hSound, hPointed, hBound, hNodup, hUsers, hPtrIds⟩ := h
  unfold startWorkSession
  by_cases hA : hasActiveSession st u = true
  · rw [if_pos hA]
    exact ⟨hIff, hSound, hPointed, hBound, hNodup, hUsers, hPtrIds⟩
  · rw [if_neg hA]
    have hA2 : hasActiveSession st u = false := by
      cases hx : hasActiveSession st u
      · rfl
      · exact absurd hx hA
    have hNoU : ∀ x ∈ st.activeSessions, x.userID ≠ u := by
      intro x hx hxu
      have hmf : x ∈ st.activeSessions.filter (fun y => y.userID == u) :=
        List.mem_filter.2 ⟨hx, by simp [hxu]⟩
      rw [hasActiveSession_false_filter st u hA2] at hmf
      cases hmf
    cases hP : findProjectByID st p with
    | none => exact ⟨hIff, hSound, hPointed, hBound, hNodup, hUsers, hPtrIds⟩
    | some proj =>
      dsimp only
      cases ok with
      | true =>
        rw [if_pos rfl]
        dsimp only
        refine ⟨?_, ?_, ?_, ?_, ?_, ?_, ?_⟩
        · intro s hs
          rcases List.mem_append.1 hs with h1 | h2
          · exact hIff s h1
          · rw [List.mem_singleton.1 h2]
            simp
        · intro i hi
          rw [List.map_append] at hi
          rcases List.mem_append.1 hi with h1 | h2
          · obtain ⟨s, hsmem, hsid, hsopen⟩ := hSound i h1
            exact ⟨s, List.mem_append_left _ hsmem, hsid, hsopen⟩
          · have : i = st.nextSessionID := by simpa using h2
            refine ⟨newWorkSession st p c u r now,
              List.mem_append_right _ (List.mem_singleton.2 rfl), by simp [this], by simp⟩
        · intro s hs hopen
          rw [List.map_append]
          rcases List.mem_append.1 hs with h1 | h2
          · exact List.mem_append_left _ (hPointed s h1 hopen)
          · rw [List.mem_singleton.1 h2]
            refine List.mem_append_right _ ?_
            simp
        · intro s hs
          rcases List.mem_append.1 hs with h1 | h2
          · exact Nat.lt_succ_of_lt (hBound s h1)
          · rw [List.mem_singleton.1 h2]
            simp [Nat.lt_succ_self]
        · show ((st.sessions ++ [newWorkSession st p c u r now]).map (fun s => s.id)).Nodup
          rw [List.map_append]
          refine List.nodup_append.2 ⟨hNodup, by simp, ?_⟩
          intro i hi1 hi2
          have h2 : i = st.nextSessionID := by simpa using hi2
          obtain ⟨x, hx, hxid⟩ := List.mem_map.1 hi1
          have := hBound x hx
          rw [hxid, h2] at this
          exact absurd this (Nat.lt_irrefl _)
        · show ((st.activeSessions ++ [newActiveSessionRecord st p c u now]).map
              (fun a => a.userID)).Nodup
          rw [List.map_append]
          refine List.nodup_append.2 ⟨hUsers, by simp, ?_⟩
          intro v hv1 hv2
          have h2 : v = u := by simpa using hv2
          obtain ⟨x, hx, hxu⟩ := List.mem_map.1 hv1
          exact hNoU x hx (by rw [hxu, h2])
        · show ((st.activeSessions ++ [newActiveSessionRecord st p c u now]).map
              (fun a => a.sessionID)).Nodup
          rw [List.map_append]
          refine List.nodup_append.2 ⟨hPtrIds, by simp, ?_⟩
          intro i hi1 hi2
          have h2 : i = st.nextSessionID := by simpa using hi2
          obtain ⟨s, hsmem, hsid, hsopen⟩ := hSound i hi1
          have := hBound s hsmem
          rw [hsid, h2] at this
          exact absurd this (Nat.lt_irrefl _)
      | false =>
        rw [if_neg (by simp)]
        dsimp only
        have hse : ((st.sessions ++ [newWorkSession st p c u r now]).filter
            (fun s => s.id != (newWorkSession st p c u r now).id)) = st.sessions := by
          refine append_new_filter_out st.sessions st.nextSessionID _ rfl ?_
          exact fun x hx => Nat.ne_of_lt (hBound x hx)
        rw [hse]
        exact ⟨hIff, hSound, hPointed, fun s hs => Nat.lt_succ_of_lt (hBound s hs),
          hNodup, hUsers, hPtrIds⟩

theorem inv_finishSessionUpdate (st : DBState) (a : UserActiveSession) (now : Int)
    (h : Inv st)
    (hMem : ∃ b ∈ st.activeSessions, b.userID = a.userID ∧ b.sessionID = a.sessionID)
    (hOnly : ∀ b ∈ st.activeSessions, b.userID = a.userID → b.sessionID = a.sessionID) :
    Inv (finishSessionUpdate st a now).2 := by
  obtain ⟨hIff, hSound, hPointed, hBound, hNodup, hUsers, hPtrIds⟩ := h
  unfold finishSessionUpdate
  cases hs : findSessionByID st a.sessionID with
  | none => exact ⟨hIff, hSound, hPointed, hBound, hNodup, hUsers, hPtrIds⟩
  | some sess =>
    dsimp only
    obtain ⟨hsMem, hsId⟩ := findSessionByID_spec st a.sessionID sess hs
    have hclid : (closeSession sess now).id = sess.id := rfl
    have hIdsEq : ((st.sessions.map
        (fun s => if s.id == (closeSession sess now).id then closeSession sess now else s)).map
          (fun s => s.id)) = st.sessions.map (fun s => s.id) := by
      rw [List.map_map]
      apply List.map_congr_left
      intro x hx
      by_cases hxe : x.id = sess.id
      · simp [Function.comp, hxe]
      · simp [Function.comp, hxe]
    refine ⟨?_, ?_, ?_, ?_, ?_, ?_, ?_⟩
    · intro s2 hs2
      obtain ⟨x, hx, hfx⟩ := List.mem_map.1 hs2
      by_cases hxe : x.id = sess.id
      · rw [if_pos (by simp [hxe])] at hfx
        rw [← hfx]
        simp
      · rw [if_neg (by simp [hxe])] at hfx
        rw [← hfx]
        exact hIff x hx
    · intro i hi
      obtain ⟨b, hbf, hbid⟩ := List.mem_map.1 hi
      obtain ⟨hbMem, hbne⟩ := List.mem_filter.1 hbf
      obtain ⟨s, hsmem, hsid, hsopen⟩ := hSound i
        (List.mem_map.2 ⟨b, hbMem, hbid⟩)
      have hne : s.id ≠ sess.id := by
        intro heq
        obtain ⟨b0, hb0mem, hb0u, hb0sid⟩ := hMem
        have hbsid : b.sessionID = a.sessionID := by
          rw [hbid, ← hsid, heq, hsId]
        have hbb0 : b = b0 := List.inj_on_of_nodup_map hPtrIds hbMem hb0mem
          (by rw [hbsid, hb0sid])
        rw [hbb0] at hbne
        rw [hb0u] at hbne
        simp at hbne
      refine ⟨s, List.mem_map.2 ⟨s, hsmem, by rw [if_neg (by simp [hne])]⟩, hsid, hsopen⟩
    · intro s2 hs2 hopen
      obtain ⟨x, hx, hfx⟩ := List.mem_map.1 hs2
      by_cases hxe : x.id = sess.id
      · rw [if_pos (by simp [hxe])] at hfx
        rw [← hfx] at hopen
        simp at hopen
      · rw [if_neg (by simp [hxe])] at hfx
        rw [← hfx] at hopen ⊢
        have hxptr := hPointed x hx hopen
        obtain ⟨b, hbMem, hbid⟩ := List.mem_map.1 hxptr
        have hbneu : b.userID ≠ a.userID := by
          intro heq
          have h1 := hOnly b hbMem heq
          rw [h1, ← hsId] at hbid
          exact hxe hbid.symm
        refine List.mem_map.2 ⟨b, List.mem_filter.2 ⟨hbMem, by simpa using hbneu⟩, hbid⟩
    · intro s2 hs2
      obtain ⟨x, hx, hfx⟩ := List.mem_map.1 hs2
      by_cases hxe : x.id = sess.id
      · rw [if_pos (by simp [hxe])] at hfx
        rw [← hfx, hclid]
        exact hBound sess hsMem
      · rw [if_neg (by simp [hxe])] at hfx
        rw [← hfx]
        exact hBound x hx
    · show ((st.sessions.map
          (fun s => if s.id == (closeSession sess now).id then closeSession sess now
                    else s)).map (fun s => s.id)).Nodup
      rw [hIdsEq]
      exact hNodup
    · show ((st.activeSessions.filter (fun x => x.userID != a.userID)).map
          (fun x => x.userID)).Nodup
      exact hUsers.sublist (List.Sublist.map _ (List.filter_sublist _))
    · show ((st.activeSessions.filter (fun x => x.userID != a.userID)).map
          (fun x => x.sessionID)).Nodup
      exact hPtrIds.sublist (List.Sublist.map _ (List.filter_sublist _))

theorem map_replace_pairs (l : List UserActiveSession) (a a2 : UserActiveSession)
    (u : String) (hmem : a ∈ l) (hau : a.userID = u) (h2u : a2.userID = u)
    (h2sid : a2.sessionID = a.sessionID)
    (hnodup : (l.map (fun x => x.userID)).Nodup) :
    (l.map (fun x => if x.userID == u then a2 else x)).map
        (fun x => (x.userID, x.sessionID)) =
      l.map (fun x => (x.userID, x.sessionID)) := by
  rw [List.map_map]
  apply List.map_congr_left
  intro x hx
  by_cases hxu : x.userID = u
  · have hxa : x = a := List.inj_on_of_nodup_map hnodup hx hmem (by rw [hxu, hau])
    subst hxa
    have hcond : (x.userID == u) = true := by simpa using hxu
    rw [Function.comp_apply, hcond]
    simp [h2u, h2sid, hxu]
  · have hcond : (x.userID == u) = false := by simpa using hxu
    rw [Function.comp_apply, hcond]
    simp

theorem pairs_proj_userID (l1 l2 : List UserActiveSession)
    (h : l1.map (fun x => (x.userID, x.sessionID)) =
         l2.map (fun x => (x.userID, x.sessionID))) :
    l1.map (fun x => x.userID) = l2.map (fun x => x.userID) := by
  have h2 := congrArg (List.map Prod.fst) h
  simpa [List.map_map, Function.comp] using h2

theorem pairs_proj_sessionID (l1 l2 : List UserActiveSession)
    (h : l1.map (fun x => (x.userID, x.sessionID)) =
         l2.map (fun x => (x.userID, x.sessionID))) :
    l1.map (fun x => x.sessionID) = l2.map (fun x => x.sessionID) := by
  have h2 := congrArg (List.map Prod.snd) h
  simpa [List.map_map, Function.comp] using h2

theorem inv_endBreak (st : DBState) (u : String) (now : Int) (h : Inv st) :
    Inv (endBreak st u now).2 := by
  cases heb : endBreak st u now with
  | mk r st2 =>
    cases r with
    | error e =>
      have he := endBreak_error_state st u now e st2 heb
      dsimp only
      rw [he]
      exact h
    | ok br =>
      dsimp only
      obtain ⟨hsess, hproj, hnext, a, a2, hga, ha2u, ha2sid, hact⟩ :=
        endBreak_ok_state st u now br st2 heb
      obtain ⟨hIff, hSound, hPointed, hBound, hNodup, hUsers, hPtrIds⟩ := h
      obtain ⟨haMem, haU⟩ := getActiveSession_ok_spec st u a hga
      have hpairs : st2.activeSessions.map (fun x => (x.userID, x.sessionID)) =
          st.activeSessions.map (fun x => (x.userID, x.sessionID)) := by
        rw [hact]
        exact map_replace_pairs st.activeSessions a a2 u haMem haU ha2u ha2sid hUsers
      have hus := pairs_proj_userID _ _ hpairs
      have hsid := pairs_proj_sessionID _ _ hpairs
      refine ⟨?_, ?_, ?_, ?_, ?_, ?_, ?_⟩
      · show ∀ s ∈ st2.sessions, (s.endTime = none ↔ s.isActive = true)
        rw [hsess]
        exact hIff
      · show ∀ i ∈ st2.activeSessions.map (fun a => a.sessionID),
          ∃ s, s ∈ st2.sessions ∧ s.id = i ∧ s.endTime = none
        rw [hsid, hsess]
        exact hSound
      · show ∀ s ∈ st2.sessions, s.endTime = none →
          s.id ∈ st2.activeSessions.map (fun a => a.sessionID)
        rw [hsid, hsess]
        exact hPointed
      · show ∀ s ∈ st2.sessions, s.id < st2.nextSessionID
        rw [hsess, hnext]
        exact hBound
      · show (st2.sessions.map (fun s => s.id)).Nodup
        rw [hsess]
        exact hNodup
      · show (st2.activeSessions.map (fun a => a.userID)).Nodup
        rw [hus]
        exact hUsers
      · show (st2.activeSessions.map (fun a => a.sessionID)).Nodup
        rw [hsid]
        exact hPtrIds

theorem inv_finishWorkSession (st : DBState) (u : String) (now : Int) (h : Inv st) :
    Inv (finishWorkSession st u now).2 := by
  unfold finishWorkSession
  cases ha : getActiveSession st u with
  | error e => exact h
  | ok a =>
    dsimp only
    obtain ⟨haMem, haU⟩ := getActiveSession_ok_spec st u a ha
    have hUsers : pointerUsersNodup st := h.2.2.2.2.2.1
    have hOnly : ∀ b ∈ st.activeSessions, b.userID = a.userID → b.sessionID = a.sessionID := by
      intro b hb hbu
      have hba : b = a := List.inj_on_of_nodup_map hUsers hb haMem hbu
      rw [hba]
    have hMem : ∃ b ∈ st.activeSessions, b.userID = a.userID ∧ b.sessionID = a.sessionID :=
      ⟨a, haMem, rfl, rfl⟩
    by_cases hb : (a.isOnBreak && a.currentBreakID != none) = true
    · rw [if_pos hb]
      cases heb : endBreak st u now with
      | mk r st2 =>
        cases r with
        | error e =>
          dsimp only
          have he := endBreak_error_state st u now e st2 heb
          rw [he]
          exact h
        | ok br =>
          dsimp only
          have h2 : Inv st2 := by
            have hx := inv_endBreak st u now h
            rw [heb] at hx
            exact hx
          obtain ⟨hsess, hproj, hnext, a3, a2, hga, ha2u, ha2sid, hact⟩ :=
            endBreak_ok_state st u now br st2 heb
          have ha3 : a3 = a := by
            rw [ha] at hga
            exact (Except.ok.injEq _ _ ▸ hga).symm
          rw [ha3] at ha2sid
          have hMem2 : ∃ b ∈ st2.activeSessions,
              b.userID = a.userID ∧ b.sessionID = a.sessionID := by
            refine ⟨a2, ?_, by rw [ha2u, haU], ha2sid⟩
            rw [hact]
            exact List.mem_map.2 ⟨a, haMem, by rw [if_pos (by simp [haU])]⟩
          have hOnly2 : ∀ b ∈ st2.activeSessions,
              b.userID = a.userID → b.sessionID = a.sessionID := by
            intro b hbmem hbu
            rw [hact] at hbmem
            obtain ⟨x, hx, hfx⟩ := List.mem_map.1 hbmem
            by_cases hxu : x.userID = u
            · rw [if_pos (by simp [hxu])] at hfx
              rw [← hfx]
              exact ha2sid
            · rw [if_neg (by simp [hxu])] at hfx
              rw [← hfx] at hbu
              rw [hbu] at hxu
              exact absurd haU hxu
          exact inv_finishSessionUpdate st2 a now h2 hMem2 hOnly2
    · rw [if_neg hb]
      exact inv_finishSessionUpdate st a now
        ⟨h.1, h.2.1, h.2.2.1, h.2.2.2.1, h.2.2.2.2.1, h.2.2.2.2.2.1, h.2.2.2.2.2.2⟩
        hMem hOnly

theorem inv_switchProject (st : DBState) (u : String) (newP : Nat) (now : Int)
    (ok : Bool) (h : Inv st) : Inv (switchProject st u newP now ok).2 := by
  unfold switchProject
  cases ha : getActiveSession st u with
  | error e => exact h
  | ok a =>
    dsimp only
    cases hf : finishWorkSession st u now with
    | mk r st1 =>
      have h1 : Inv st1 := by
        have hx := inv_finishWorkSession st u now h
        rw [hf] at hx
        exact hx
      cases r with
      | error e => exact h1
      | ok cur =>
        dsimp only
        exact inv_startWorkSession st1 newP a.companyID u cur.hourlyRate now ok h1

theorem inv_switchCompany (st : DBState) (u nc : String) (newP : Nat) (r : Option Rat)
    (now : Int) (ok : Bool) (h : Inv st) : Inv (switchCompany st u nc newP r now ok).2 := by
  unfold switchCompany
  by_cases hA : hasActiveSession st u = true
  · rw [if_pos hA]
    cases hf : finishWorkSession st u now with
    | mk res st1 =>
      have h1 : Inv st1 := by
        have hx := inv_finishWorkSession st u now h
        rw [hf] at hx
        exact hx
      cases res with
      | error e => exact h1
      | ok cur =>
        dsimp only
        exact inv_startWorkSession st1 newP nc u r now ok h1
  · rw [if_neg hA]
    exact inv_startWorkSession st newP nc u r now ok h

/-- C9: start, finish, switchProject and switchCompany each preserve
the invariant that a TimeSession has a null end time exactly when its
active flag is set, together with the two-way correspondence between
ActiveSessionPointers and open sessions (every pointer references an
existing open session and every open session is pointed to), under the
structural well-formedness the database enforces through its keys. -/
theorem c9_lifecycle_preserves_invariants (st : DBState) (u c : String) (p : Nat)
    (r : Option Rat) (now : Int) (ok : Bool) (h : Inv st) :
    Inv (startWorkSession st p c u r now ok).2 ∧
    Inv (finishWorkSession st u now).2 ∧
    Inv (switchProject st u p now ok).2 ∧
    Inv (switchCompany st u c p r now ok).2 :=
  ⟨inv_startWorkSession st p c u r now ok h,
   inv_finishWorkSession st u now h,
   inv_switchProject st u p now ok h,
   inv_switchCompany st u c p r now ok h⟩

theorem inv_stEmpty : Inv stEmpty := by
  refine ⟨?_, ?_, ?_, ?_, ?_, ?_, ?_⟩ <;>
    simp [sessionsOpenIffActive, pointersSound, openSessionsPointed, sessionIdsBounded,
      sessionIdsNodup, pointerUsersNodup, pointerSessionIdsNodup, stEmpty]

theorem c9_witness :
    Inv (startWorkSession stEmpty 7 "acme" "u1" none 0 true).2 ∧
    Inv (finishWorkSession stEmpty "u1" 0).2 ∧
    Inv (switchProject stEmpty "u1" 7 0 true).2 ∧
    Inv (switchCompany stEmpty "u1" "acme" 7 none 0 true).2 :=
  c9_lifecycle_preserves_invariants stEmpty "u1" "acme" 7 none 0 true inv_stEmpty

end ProfessionalTracker
